/-
Verification of the review aggregation and external-lookup subsystem of the
rumble-reviews repository (src/rumble/cogs/review.py, src/rumble/models/omdb.py).

The Python code is shallowly embedded: the durable store (Postgres table
movie_reviews) is a list of records, the SQL statements are translated into
pure Lean functions on that list, and the external OMDB HTTP calls are
modelled by explicit response values / oracle functions passed as arguments.
-/
import Mathlib

namespace Rumble

/-- A row of the `movie_reviews` table
(columns as in the INSERT of `ReviewSelect.callback`). -/
structure ReviewRecord where
  guild_id : Nat
  user_id : Nat
  user_name : String
  movie_id : String
  movie_name : String
  review_score : Int
  review_time : Nat
deriving DecidableEq, Repr

/-- The conflict key of the upsert: `(guild_id, user_id, movie_id)`. -/
def matchKey (r : ReviewRecord) (g u : Nat) (mid : String) : Bool :=
  r.guild_id == g && r.user_id == u && r.movie_id == mid

/-- Embedding of the SQL in `ReviewSelect.callback`:
`INSERT INTO movie_reviews ... ON CONFLICT (guild_id, user_id, movie_id)
DO UPDATE SET review_score = EXCLUDED.review_score,
review_time = EXCLUDED.review_time`.
If a row with the conflict key exists it is updated in place (only
`review_score` and `review_time`; `user_name` and `movie_name` keep their
stored values), otherwise a new row is appended. -/
def upsert (st : List ReviewRecord) (g u : Nat) (uname mid mname : String)
    (score : Int) (time : Nat) : List ReviewRecord :=
  if st.any (fun r => matchKey r g u mid) then
    st.map (fun r =>
      if matchKey r g u mid then
        { r with review_score := score, review_time := time }
      else r)
  else
    st ++ [⟨g, u, uname, mid, mname, score, time⟩]

/-- Number of stored rows with a given conflict key. -/
def countTriple (st : List ReviewRecord) (g u : Nat) (mid : String) : Nat :=
  (st.filter (fun r => matchKey r g u mid)).length

/-- The uniqueness invariant the table's `ON CONFLICT` clause presupposes:
at most one row per `(guild_id, user_id, movie_id)`. -/
def uniqueInv (st : List ReviewRecord) : Prop :=
  ∀ g u mid, countTriple st g u mid ≤ 1

/-- One rating submission for a fixed `(guild_id, user_id, movie_id)` triple:
the data of one `ReviewSelect.callback` invocation besides the triple. -/
structure UpsertCall where
  user_name : String
  movie_name : String
  score : Int
  time : Nat
deriving DecidableEq, Repr

/-- Applying a sequence of rating submissions for one triple to a store. -/
def applyCalls (g u : Nat) (mid : String) (st : List ReviewRecord)
    (calls : List UpsertCall) : List ReviewRecord :=
  calls.foldl (fun s c => upsert s g u c.user_name mid c.movie_name c.score c.time) st

/-- A concrete pair of submissions: the same user re-rates the same title. -/
def demoCalls : List UpsertCall := [⟨"u1", "Dune", 3, 0⟩, ⟨"u1", "Dune", 9, 1⟩]

/-- The `WHERE guild_id = $1` filter of the `list_reviews` query. -/
def guildRows (st : List ReviewRecord) (g : Nat) : List ReviewRecord :=
  st.filter (fun r => r.guild_id == g)

/-- The distinct `GROUP BY movie_id, movie_name` keys, in order of first
occurrence. -/
def firstOccs : List (String × String) → List (String × String)
  | [] => []
  | k :: ks => k :: (firstOccs ks).filter (fun k' => k' ≠ k)

/-- One output row of the aggregation query in `list_reviews`:
`SELECT movie_id, movie_name, AVG(review_score) as avg_score,
COUNT(review_score) as num_reviews`. -/
structure AggRow where
  movie_id : String
  movie_name : String
  avg_score : Rat
  num_reviews : Nat
deriving DecidableEq, Repr

def sumScores (rows : List ReviewRecord) : Int :=
  (rows.map (fun r => r.review_score)).sum

/-- The rows of one `GROUP BY movie_id, movie_name` group. -/
def keyRows (rows : List ReviewRecord) (k : String × String) : List ReviewRecord :=
  rows.filter (fun r => r.movie_id == k.1 && r.movie_name == k.2)

/-- The grouped aggregation of the `list_reviews` query: for each distinct
`(movie_id, movie_name)` of the guild's rows, the exact average (`AVG` over
integers is exact numeric division in Postgres, embedded as `Rat`) and the
row count. The `ORDER BY avg_score DESC` clause is modelled separately as a
relation on outputs, since it fixes no order among equal averages. -/
def aggRows (st : List ReviewRecord) (g : Nat) : List AggRow :=
  (firstOccs ((guildRows st g).map (fun r => (r.movie_id, r.movie_name)))).map
    (fun k =>
      ⟨k.1, k.2,
        (sumScores (keyRows (guildRows st g) k) : Rat) /
          ((keyRows (guildRows st g) k).length : Rat),
        (keyRows (guildRows st g) k).length⟩)

/-- Written from the spec's words for comparison (refinement check only):
the arithmetic mean of all currently stored scores for
`(community_id, canonical_id)`, the grouping §3 of the spec describes for
`TitleAggregate`. -/
def specMeanScores (st : List ReviewRecord) (g : Nat) (mid : String) : Rat :=
  (sumScores (st.filter (fun r => r.guild_id == g && r.movie_id == mid)) : Rat) /
    ((st.filter (fun r => r.guild_id == g && r.movie_id == mid)).length : Rat)

/-- A reachable store: two users rate the same movie id while the catalog's
title string differs between their submissions, so the two rows carry
different `movie_name` snapshots. -/
def stC2 : List ReviewRecord :=
  upsert (upsert [] 1 1 "u1" "tt1" "A" 2 0) 1 2 "u2" "tt1" "B" 10 1

/-- The first aggregate row of `list_reviews` over `stC2`. -/
def aggRowA : AggRow := ⟨"tt1", "A", 2, 1⟩

/-- `ORDER BY avg_score DESC` of the `list_reviews` query, as a relation on
outputs: the database returns some permutation of the grouped rows that is
weakly sorted by descending average. The clause names no secondary key, so it
fixes no order among rows with equal averages. -/
def validListing (st : List ReviewRecord) (g : Nat) (out : List AggRow) : Prop :=
  out.Perm (aggRows st g) ∧ out.Pairwise (fun a b => b.avg_score ≤ a.avg_score)

/-- A store where two distinct titles have the same average score 8. -/
def stC7 : List ReviewRecord :=
  upsert (upsert [] 1 1 "u1" "tt1" "A" 8 0) 1 2 "u2" "tt2" "B" 8 1

def aggA8 : AggRow := ⟨"tt1", "A", 8, 1⟩

def aggB8 : AggRow := ⟨"tt2", "B", 8, 1⟩

/-- `OmdbSearch` of `rumble/models/omdb.py`: one entry of the OMDB `Search`
payload, as `OmdbSearch.from_dict` parses it. -/
structure OmdbSearchT where
  title : String
  year : String
  imdb_id : String
  poster : String
  media_type : String
deriving DecidableEq, Repr

/-- `OmdbMovie` of `rumble/models/omdb.py`, as `OmdbMovie.from_dict`
parses an OMDB lookup payload. -/
structure OmdbMovieT where
  title : String
  year : String
  rated : String
  released : String
  runtime : String
  genre : String
  director : String
  writer : String
  actors : String
  plot : String
  box_office : String
  poster : String
  imdb_rating : String
  imdb_votes : String
deriving DecidableEq, Repr

/-- The observable parts of an OMDB search HTTP exchange as
`Review.fetch_movie_imdb_data` inspects them: the transport status, whether
the JSON body has `Response == "True"`, and the `Search` payload. -/
structure SearchResponse where
  status : Nat
  responseTrue : Bool
  search : List OmdbSearchT
deriving DecidableEq, Repr

/-- The observable parts of an OMDB lookup HTTP exchange as
`Review.fetch_movie_imdb_data_by_imdb_id` inspects them. -/
structure MovieResponse where
  status : Nat
  responseTrue : Bool
  movie : OmdbMovieT
deriving DecidableEq, Repr

/-- `Review.fetch_movie_imdb_data`: the `Search` list when the status is 200
and `Response` is `"True"`; `None` in every other case (non-200 transport
outcome or domain-level `Response:"False"` alike). -/
def fetch_movie_imdb_data (resp : SearchResponse) : Option (List OmdbSearchT) :=
  if resp.status = 200 then
    (if resp.responseTrue then some resp.search else none)
  else none

/-- `Review.fetch_movie_imdb_data_by_imdb_id`: the parsed movie when the
status is 200 and `Response` is `"True"`; `None` in every other case. -/
def fetch_movie_imdb_data_by_imdb_id (resp : MovieResponse) : Option OmdbMovieT :=
  if resp.status = 200 then
    (if resp.responseTrue then some resp.movie else none)
  else none

def demoSearch : List OmdbSearchT :=
  [⟨"Dune", "2021", "tt1160419", "poster1", "movie"⟩,
   ⟨"Dune: Part Two", "2024", "tt15239678", "poster2", "movie"⟩]

def demoMovie : OmdbMovieT :=
  ⟨"Dune", "2021", "PG-13", "22 Oct 2021", "155 min", "Sci-Fi", "d", "w",
    "a", "p", "b", "poster1", "8.0", "700,000"⟩

/-- The row-assembly loop of `list_reviews`: for each aggregate row, fetch
the catalog record by its id (`fetchById` is the oracle for what
`fetch_movie_imdb_data_by_imdb_id` answers) and keep the row only when the
fetch returned data (`if movie_data:`). -/
def listReviewsMovies (fetchById : String → Option OmdbMovieT)
    (aggs : List AggRow) : List (OmdbMovieT × Rat × Nat) :=
  aggs.filterMap (fun row =>
    (fetchById row.movie_id).map (fun m => (m, row.avg_score, row.num_reviews)))

/-- A Discord `app_commands.Choice`: the label shown and the value submitted. -/
structure ChoiceT where
  name : String
  value : String
deriving DecidableEq, Repr

/-- `limit: int = 5` in `play_autocomplete`. -/
def autocompleteLimit : Nat := 5

/-- The sentinel returned for empty input. -/
def startTypingChoice : ChoiceT :=
  ⟨"Start typing in the name of your movie/show!", ""⟩

/-- The sentinel returned when the search yielded nothing. -/
def noResultsChoice : ChoiceT :=
  ⟨"No results found, write a movie/show that exists in IMDB", ""⟩

/-- The per-candidate mapping of `play_autocomplete`:
`Choice(name=f"{result.title} - ({result.year})", value=result.imdb_id)`. -/
def formatChoice (r : OmdbSearchT) : ChoiceT :=
  ⟨r.title ++ " - (" ++ r.year ++ ")", r.imdb_id⟩

/-- Python's `str.strip()`: the string without leading and trailing
whitespace. -/
def pyStrip (s : String) : String :=
  ⟨((s.data.dropWhile Char.isWhitespace).reverse.dropWhile Char.isWhitespace).reverse⟩

/-- `Review.play_autocomplete`. `fetchResult` is the oracle for the
`fetch_movie_imdb_data` call on the query; the returned `Bool` records
whether that external call was made. -/
def play_autocomplete (fetchResult : Option (List OmdbSearchT))
    (current : String) : List ChoiceT × Bool :=
  if pyStrip current = "" then ([startTypingChoice], false)
  else
    match fetchResult with
    | none => ([noResultsChoice], true)
    | some rs => ((rs.take autocompleteLimit).map formatChoice, true)

/-- A Discord `SelectOption`: label shown, value submitted. -/
structure SelectOptionT where
  label : String
  value : String
deriving DecidableEq, Repr

/-- The options built in `ReviewSelect.__init__`:
`[SelectOption(label=str(i), value=str(i)) for i in range(1, 11)]`. -/
def reviewSelectOptions : List SelectOptionT :=
  (List.range' 1 10).map (fun i => ⟨toString i, toString i⟩)

/-- `min_values=1` of the select menu. -/
def reviewSelectMinValues : Nat := 1

/-- `max_values=1` of the select menu. -/
def reviewSelectMaxValues : Nat := 1

def parseDigitsAux : Nat → List Char → Option Nat
  | n, [] => some n
  | n, c :: cs =>
    if c.isDigit then parseDigitsAux (10 * n + (c.toNat - 48)) cs else none

/-- Python `int(...)` on a decimal string literal (optional sign then
digits); `none` where Python raises `ValueError`. -/
def pyInt (s : String) : Option Int :=
  match s.data with
  | [] => none
  | '-' :: [] => none
  | '-' :: c :: cs => (parseDigitsAux 0 (c :: cs)).map (fun n => -(n : Int))
  | c :: cs => (parseDigitsAux 0 (c :: cs)).map (fun n => (n : Int))

/-- `score = int(self.values[0])` in `ReviewSelect.callback`: Python `int`
applied to the selected value, failing on a non-integer string. -/
def callbackParseScore (v : String) : Option Int := pyInt v

/-- SQL `LIKE` pattern matching over characters — `likeMatch pattern text`:
`%` matches any sequence, `_` any single character, anything else itself. -/
def likeMatch : List Char → List Char → Bool
  | [], s => s.isEmpty
  | '%' :: ps, s => (s.tails).any (fun s' => likeMatch ps s')
  | '_' :: _, [] => false
  | '_' :: ps, _ :: s' => likeMatch ps s'
  | _ :: _, [] => false
  | c :: ps, d :: s' => (c == d) && likeMatch ps s'

/-- Postgres `ILIKE`: case-insensitive `LIKE`, embedded by lower-casing both
sides character by character. -/
def ilikeMatch (s pat : String) : Bool :=
  likeMatch (pat.data.map Char.toLower) (s.data.map Char.toLower)

/-- Stable insertion into a list ascending by `review_time`. -/
def insertByTime (r : ReviewRecord) : List ReviewRecord → List ReviewRecord
  | [] => [r]
  | x :: xs =>
    if r.review_time < x.review_time then r :: x :: xs
    else x :: insertByTime r xs

/-- `ORDER BY review_time ASC`. -/
def sortByTime (rows : List ReviewRecord) : List ReviewRecord :=
  rows.foldr insertByTime []

/-- The row query of `get_reviewed_movie_stats`: `SELECT ... FROM
movie_reviews WHERE guild_id = $1 AND movie_name ILIKE $2 ORDER BY
review_time ASC`, with the user-supplied name as the pattern. -/
def statsRows (st : List ReviewRecord) (g : Nat) (name : String) :
    List ReviewRecord :=
  sortByTime (st.filter (fun r => r.guild_id == g && ilikeMatch r.movie_name name))

/-- `imdb_id = rows[0]["movie_id"]` in `get_reviewed_movie_stats`: the id
whose catalog record heads the reply embed. -/
def statsHeaderId (st : List ReviewRecord) (g : Nat) (name : String) :
    Option String :=
  (statsRows st g name).head?.map (fun r => r.movie_id)

/-- A store where two movies with distinct canonical ids share the title
string "Dune". -/
def stC6 : List ReviewRecord :=
  upsert (upsert [] 1 1 "u1" "tt1" "Dune" 8 0) 1 2 "u2" "tt2" "Dune" 5 1

theorem matchKey_update (r : ReviewRecord) (g' u' : Nat) (mid' : String)
    (s : Int) (t : Nat) :
    matchKey { r with review_score := s, review_time := t } g' u' mid' =
      matchKey r g' u' mid' := rfl

theorem countTriple_update (st : List ReviewRecord) (g u g' u' : Nat)
    (mid mid' : String) (s : Int) (t : Nat) :
    countTriple
      (st.map (fun r =>
        if matchKey r g u mid then
          { r with review_score := s, review_time := t }
        else r)) g' u' mid' = countTriple st g' u' mid' := by
  induction st with
  | nil => rfl
  | cons r rs ih =>
    by_cases h : matchKey r g u mid <;>
      simp only [countTriple, List.map_cons, List.filter_cons, h, if_pos, if_neg,
        matchKey_update] at * <;>
    · by_cases h' : matchKey r g' u' mid' <;> simp [h', ih]

theorem countTriple_append (st st' : List ReviewRecord) (g u : Nat) (mid : String) :
    countTriple (st ++ st') g u mid = countTriple st g u mid + countTriple st' g u mid := by
  simp [countTriple, List.filter_append]

theorem countTriple_singleton (x : ReviewRecord) (g u : Nat) (mid : String) :
    countTriple [x] g u mid = if matchKey x g u mid then 1 else 0 := by
  by_cases h : matchKey x g u mid <;> simp [countTriple, List.filter_cons, h]

theorem upsert_uniqueInv (st : List ReviewRecord) (g u : Nat)
    (uname mid mname : String) (s : Int) (t : Nat) (h : uniqueInv st) :
    uniqueInv (upsert st g u uname mid mname s t) := by
  intro g' u' mid'
  unfold upsert
  by_cases hc : st.any (fun r => matchKey r g u mid)
  · simpa [hc, countTriple_update] using h g' u' mid'
  · simp only [hc, if_neg, Bool.not_eq_true, countTriple_append]
    have hz : countTriple st g u mid = 0 := by
      simp only [countTriple, List.length_eq_zero, List.filter_eq_nil_iff]
      intro r hr
      have := List.any_eq_false.mp (by simpa using hc) r hr
      simpa using this
    by_cases hk : matchKey (⟨g, u, uname, mid, mname, s, t⟩ : ReviewRecord) g' u' mid'
    · have : g' = g ∧ u' = u ∧ mid' = mid := by
        simp only [matchKey, Bool.and_eq_true, beq_iff_eq] at hk
        exact ⟨hk.1.1.symm, hk.1.2.symm, hk.2.symm⟩
      obtain ⟨rfl, rfl, rfl⟩ := this
      simp [hz, countTriple_singleton, hk]
    · simpa [countTriple_singleton, hk] using h g' u' mid'

theorem upsert_count_one (st : List ReviewRecord) (g u : Nat)
    (uname mid mname : String) (s : Int) (t : Nat) (h : uniqueInv st) :
    countTriple (upsert st g u uname mid mname s t) g u mid = 1 := by
  unfold upsert
  by_cases hc : st.any (fun r => matchKey r g u mid)
  · rw [if_pos hc, countTriple_update]
    obtain ⟨r, hr, hk⟩ := List.any_eq_true.mp hc
    have h1 : 1 ≤ countTriple st g u mid := by
      have : r ∈ st.filter (fun r => matchKey r g u mid) :=
        List.mem_filter.mpr ⟨hr, by simpa using hk⟩
      have := List.length_pos.mpr (List.ne_nil_of_mem this)
      simpa [countTriple] using this
    exact le_antisymm (h g u mid) h1
  · rw [if_neg hc, countTriple_append]
    have hz : countTriple st g u mid = 0 := by
      simp only [countTriple, List.length_eq_zero, List.filter_eq_nil_iff]
      intro r hr
      have := List.any_eq_false.mp (by simpa using hc) r hr
      simpa using this
    have hk : matchKey (⟨g, u, uname, mid, mname, s, t⟩ : ReviewRecord) g u mid = true := by
      simp [matchKey]
    simp [hz, countTriple_singleton, hk]

theorem upsert_last_score (st : List ReviewRecord) (g u : Nat)
    (uname mid mname : String) (s : Int) (t : Nat)
    (r : ReviewRecord) (hr : r ∈ upsert st g u uname mid mname s t)
    (hk : matchKey r g u mid) :
    r.review_score = s ∧ r.review_time = t := by
  unfold upsert at hr
  by_cases hc : st.any (fun r => matchKey r g u mid)
  · rw [if_pos hc] at hr
    obtain ⟨r0, hr0, heq⟩ := List.mem_map.mp hr
    by_cases h0 : matchKey r0 g u mid
    · rw [if_pos h0] at heq
      subst heq; exact ⟨rfl, rfl⟩
    · rw [if_neg h0] at heq
      subst heq; exact absurd hk h0
  · rw [if_neg hc] at hr
    rcases List.mem_append.mp hr with hmem | hmem
    · have := List.any_eq_false.mp (by simpa using hc) r hmem
      simp only [Bool.not_eq_true] at this
      rw [this] at hk; cases hk
    · have : r = (⟨g, u, uname, mid, mname, s, t⟩ : ReviewRecord) := by
        simpa using hmem
      subst this; exact ⟨rfl, rfl⟩

theorem applyCalls_uniqueInv (g u : Nat) (mid : String) (calls : List UpsertCall)
    (st : List ReviewRecord) (h : uniqueInv st) :
    uniqueInv (applyCalls g u mid st calls) := by
  induction calls generalizing st with
  | nil => exact h
  | cons c cs ih =>
    exact ih _ (upsert_uniqueInv st g u c.user_name mid c.movie_name c.score c.time h)

theorem applyCalls_append (g u : Nat) (mid : String) (st : List ReviewRecord)
    (cs : List UpsertCall) (c : UpsertCall) :
    applyCalls g u mid st (cs ++ [c]) =
      upsert (applyCalls g u mid st cs) g u c.user_name mid c.movie_name c.score c.time := by
  simp [applyCalls, List.foldl_append]

/-- C1: any sequence of rating submissions for one
`(community_id, user_id, canonical_id)` triple, applied to a store satisfying
the key-uniqueness invariant, leaves exactly one row for that triple, and its
`review_score` and `review_time` are those of the last submission
(last-write-wins; a later submission never creates a second row). -/
theorem upsert_last_write_wins (st : List ReviewRecord) (g u : Nat) (mid : String)
    (calls : List UpsertCall) (hst : uniqueInv st) (hne : calls ≠ []) :
    countTriple (applyCalls g u mid st calls) g u mid = 1 ∧
    ∀ r ∈ applyCalls g u mid st calls, matchKey r g u mid →
      r.review_score = (calls.getLast hne).score ∧
      r.review_time = (calls.getLast hne).time := by
  rcases List.eq_nil_or_concat calls with rfl | ⟨cs, c, rfl⟩
  · exact absurd rfl hne
  · have hl : (cs.concat c).getLast hne = c := List.getLast_concat' cs
    rw [hl, List.concat_eq_append, applyCalls_append]
    have hinv := applyCalls_uniqueInv g u mid cs st hst
    refine ⟨upsert_count_one _ g u c.user_name mid c.movie_name c.score c.time hinv, ?_⟩
    intro r hr hk
    exact upsert_last_score _ g u c.user_name mid c.movie_name c.score c.time r hr hk

/-- Witness for C1 at a concrete input: two submissions with scores 3 then 9
leave one row whose score is 9 and time is 1. -/
theorem upsert_last_write_wins_witness :
    countTriple (applyCalls 1 2 "tt0" [] demoCalls) 1 2 "tt0" = 1 ∧
    ∀ r ∈ applyCalls 1 2 "tt0" [] demoCalls, matchKey r 1 2 "tt0" →
      r.review_score = 9 ∧ r.review_time = 1 := by
  have h := upsert_last_write_wins [] 1 2 "tt0" demoCalls
    (by intro g u mid; simp [countTriple]) (by simp [demoCalls])
  simpa [demoCalls] using h

theorem mem_firstOccs {l : List (String × String)} {k : String × String} :
    k ∈ firstOccs l ↔ k ∈ l := by
  induction l with
  | nil => simp [firstOccs]
  | cons a l ih =>
    by_cases h : k = a <;> simp [firstOccs, List.mem_filter, h, ih]

theorem firstOccs_nodup (l : List (String × String)) : (firstOccs l).Nodup := by
  induction l with
  | nil => simp [firstOccs]
  | cons a l ih =>
    refine List.Nodup.cons ?_ (ih.filter _)
    intro ha
    have := (List.mem_filter.mp ha).2
    simp at this

/-- C2 counterexample: in `stC2` the two rows for canonical id `"tt1"` carry
different title snapshots, so `list_reviews` aggregates them into two separate
rows with averages 2 and 10, while the arithmetic mean of all stored scores
for `(community 1, "tt1")` — what the claim asserts the aggregate equals —
is 6; no returned aggregate equals it. -/
theorem aggRows_groupkey_counterexample :
    (aggRows stC2 1).map (fun row => (row.movie_id, row.avg_score)) =
      [("tt1", 2), ("tt1", 10)] ∧
    specMeanScores stC2 1 "tt1" = 6 ∧
    (2 : Rat) ≠ 6 ∧ (10 : Rat) ≠ 6 := by
  refine ⟨?_, ?_, by norm_num, by norm_num⟩
  · simp +decide [aggRows, stC2, upsert, matchKey, guildRows, firstOccs, keyRows,
      sumScores, List.filter_cons]
  · simp +decide [specMeanScores, stC2, upsert, matchKey, sumScores, List.filter_cons]
    norm_num

theorem keyRows_guildRows (st : List ReviewRecord) (g : Nat) (k : String × String) :
    keyRows (guildRows st g) k =
      st.filter (fun r =>
        (r.movie_id == k.1 && r.movie_name == k.2) && r.guild_id == g) := by
  simp [keyRows, guildRows, List.filter_filter]

/-- C2 amended: each aggregate row returned by `list_reviews` has
`num_reviews` equal to the number of currently stored rows matching its full
group key `(community_id, canonical_id, title_snapshot)` and `avg_score`
times that count equal to the sum of their scores (exact arithmetic mean,
recomputed from the rows at read time), with at least one underlying row and
no repeated group key — the grouping key includes the title snapshot, so rows
of one canonical id with different snapshots aggregate separately. -/
theorem aggRows_mean_count (st : List ReviewRecord) (g : Nat) (row : AggRow)
    (h : row ∈ aggRows st g) :
    ((aggRows st g).map (fun a => (a.movie_id, a.movie_name))).Nodup ∧
    row.num_reviews =
      (st.filter (fun r =>
        (r.movie_id == row.movie_id && r.movie_name == row.movie_name) &&
          r.guild_id == g)).length ∧
    0 < row.num_reviews ∧
    row.avg_score * (row.num_reviews : Rat) =
      (sumScores (st.filter (fun r =>
        (r.movie_id == row.movie_id && r.movie_name == row.movie_name) &&
          r.guild_id == g)) : Rat) := by
  obtain ⟨k, hk, rfl⟩ := List.mem_map.mp h
  have hnodup : ((aggRows st g).map (fun a => (a.movie_id, a.movie_name))).Nodup := by
    have : (aggRows st g).map (fun a => (a.movie_id, a.movie_name)) =
        firstOccs ((guildRows st g).map (fun r => (r.movie_id, r.movie_name))) := by
      simp [aggRows, List.map_map, Function.comp_def, Prod.mk.eta, List.map_id]
    rw [this]
    exact firstOccs_nodup _
  have hpos : 0 < (keyRows (guildRows st g) k).length := by
    have hk' : k ∈ (guildRows st g).map (fun r => (r.movie_id, r.movie_name)) :=
      mem_firstOccs.mp hk
    obtain ⟨r, hr, hrk⟩ := List.mem_map.mp hk'
    have : r ∈ keyRows (guildRows st g) k := by
      refine List.mem_filter.mpr ⟨hr, ?_⟩
      simp [← hrk]
    exact List.length_pos.mpr (List.ne_nil_of_mem this)
  refine ⟨hnodup, by rw [← keyRows_guildRows], hpos, ?_⟩
  rw [← keyRows_guildRows]
  exact div_mul_cancel₀ _ (by exact_mod_cast Nat.pos_iff_ne_zero.mp hpos)

/-- Witness for the amended C2 at a concrete input. -/
theorem aggRows_mean_count_witness :
    ((aggRows stC2 1).map (fun a => (a.movie_id, a.movie_name))).Nodup ∧
    aggRowA.num_reviews =
      (stC2.filter (fun r =>
        (r.movie_id == aggRowA.movie_id && r.movie_name == aggRowA.movie_name) &&
          r.guild_id == 1)).length ∧
    0 < aggRowA.num_reviews ∧
    aggRowA.avg_score * (aggRowA.num_reviews : Rat) =
      (sumScores (stC2.filter (fun r =>
        (r.movie_id == aggRowA.movie_id && r.movie_name == aggRowA.movie_name) &&
          r.guild_id == 1)) : Rat) := by
  refine aggRows_mean_count stC2 1 aggRowA ?_
  have : aggRows stC2 1 = [aggRowA, ⟨"tt1", "B", 10, 1⟩] := by
    simp +decide [aggRows, stC2, upsert, matchKey, guildRows, firstOccs, keyRows,
      sumScores, List.filter_cons, aggRowA]
  rw [this]
  exact List.mem_cons_self _ _

theorem aggRows_stC7 : aggRows stC7 1 = [aggA8, aggB8] := by
  simp +decide [aggRows, stC7, upsert, matchKey, guildRows, firstOccs, keyRows,
    sumScores, List.filter_cons, aggA8, aggB8]

theorem validListing_AB : validListing stC7 1 [aggA8, aggB8] := by
  refine ⟨by rw [aggRows_stC7], ?_⟩
  simp [aggA8, aggB8]

theorem validListing_BA : validListing stC7 1 [aggB8, aggA8] := by
  refine ⟨by rw [aggRows_stC7]; exact List.Perm.swap _ _ _, ?_⟩
  simp [aggA8, aggB8]

/-- C7 counterexample: over `stC7`, titles `"tt1"` and `"tt2"` both average 8,
and both orders of their two aggregate rows satisfy the
`ORDER BY avg_score DESC` contract of the query, which fixes no tie-break:
the code does not determine the relative order of equal-average titles. -/
theorem top_titles_tie_counterexample :
    validListing stC7 1 [aggA8, aggB8] ∧ validListing stC7 1 [aggB8, aggA8] ∧
    aggA8 ≠ aggB8 :=
  ⟨validListing_AB, validListing_BA, by simp [aggA8, aggB8]⟩

/-- C7 amended: any output permitted by the `ORDER BY avg_score DESC` query is
weakly sorted by descending average, and any two permitted outputs over the
same stored rows have identical sequences of averages; only the order within
a block of equal-average rows is left open (no deterministic tie-break). -/
theorem validListing_avg_sequence (st : List ReviewRecord) (g : Nat)
    (out1 out2 : List AggRow)
    (h1 : validListing st g out1) (h2 : validListing st g out2) :
    out1.map (fun a => a.avg_score) = out2.map (fun a => a.avg_score) := by
  have hp : out1.Perm out2 := h1.1.trans h2.1.symm
  have hm : (out1.map (fun a => a.avg_score)).Perm
      (out2.map (fun a => a.avg_score)) := hp.map _
  haveI : IsAntisymm Rat (fun x y => y ≤ x) :=
    ⟨fun _ _ hxy hyx => le_antisymm hyx hxy⟩
  have hs1 : List.Sorted (fun x y => y ≤ x) (out1.map (fun a => a.avg_score)) :=
    List.pairwise_map.mpr h1.2
  have hs2 : List.Sorted (fun x y => y ≤ x) (out2.map (fun a => a.avg_score)) :=
    List.pairwise_map.mpr h2.2
  exact List.eq_of_perm_of_sorted hm hs1 hs2

/-- Witness for the amended C7 at a concrete input: the two permitted orders
over `stC7` have the same average sequence. -/
theorem validListing_avg_sequence_witness :
    ([aggA8, aggB8].map (fun a => a.avg_score)) =
      ([aggB8, aggA8].map (fun a => a.avg_score)) :=
  validListing_avg_sequence stC7 1 [aggA8, aggB8] [aggB8, aggA8]
    validListing_AB validListing_BA

/-- C3 (code bug): both catalog lookup failure modes collapse to the same
value. A transport failure (HTTP 503) and a domain-level miss (HTTP 200 with
`Response:"False"`) both make `fetch_movie_imdb_data` and
`fetch_movie_imdb_data_by_imdb_id` return `None` — callers cannot tell
`ExternalUnavailable` from `NotFound`. -/
theorem fetch_conflates_failure_modes :
    fetch_movie_imdb_data ⟨503, true, demoSearch⟩ = none ∧
    fetch_movie_imdb_data ⟨200, false, demoSearch⟩ = none ∧
    fetch_movie_imdb_data ⟨503, true, demoSearch⟩ =
      fetch_movie_imdb_data ⟨200, false, demoSearch⟩ ∧
    fetch_movie_imdb_data_by_imdb_id ⟨503, true, demoMovie⟩ = none ∧
    fetch_movie_imdb_data_by_imdb_id ⟨200, false, demoMovie⟩ = none ∧
    fetch_movie_imdb_data_by_imdb_id ⟨503, true, demoMovie⟩ =
      fetch_movie_imdb_data_by_imdb_id ⟨200, false, demoMovie⟩ :=
  ⟨rfl, rfl, rfl, rfl, rfl, rfl⟩

/-- C4 (code bug): `list_reviews` drops aggregates whose catalog fetch
fails. Over `stC7` there are two stored aggregates (`"tt1"` and `"tt2"`);
with a catalog that answers only for `"tt1"`, the listing keeps one row, and
with the catalog failing for every id the listing is empty — stored reviews
vanish from the listing instead of appearing with missing metadata. -/
theorem list_reviews_drops_failed_fetch :
    (aggRows stC7 1).map (fun r => r.movie_id) = ["tt1", "tt2"] ∧
    (listReviewsMovies
        (fun mid => if mid = "tt1" then some demoMovie else none)
        (aggRows stC7 1)).map (fun e => e.1) = [demoMovie] ∧
    listReviewsMovies (fun _ => none) (aggRows stC7 1) = [] := by
  refine ⟨?_, ?_, ?_⟩ <;> rw [aggRows_stC7] <;> rfl

/-- C5 counterexample: nothing in the code rejects an out-of-range score.
An upsert call with score 11 is not refused: it creates a row carrying
score 11, so the store does not stay unchanged. -/
theorem upsert_out_of_range_counterexample :
    upsert [] 1 1 "u1" "tt1" "M" 11 0 =
      [⟨1, 1, "u1", "tt1", "M", 11, 0⟩] ∧
    upsert [] 1 1 "u1" "tt1" "M" 11 0 ≠ [] :=
  ⟨rfl, by decide⟩

/-- C5 amended: the store-level upsert validates and clamps nothing — any
score, in range or not, is persisted exactly as passed — and out-of-range
scores are kept out only by the rating select menu, whose every option value
parses to an integer in [1, 10]. -/
theorem upsert_no_validation_menu_guard :
    (∀ (g u : Nat) (un mid mn : String) (s : Int) (t : Nat),
      upsert [] g u un mid mn s t = [⟨g, u, un, mid, mn, s, t⟩]) ∧
    reviewSelectOptions.all (fun o =>
      match callbackParseScore o.value with
      | some n => decide (1 ≤ n ∧ n ≤ 10)
      | none => false) = true :=
  ⟨fun _ _ _ _ _ _ _ => rfl, by decide⟩

/-- C6 (code bug): `get_reviewed_movie_stats` mixes canonical ids. Over
`stC6`, where `"tt1"` and `"tt2"` share the title "Dune", the query for
"Dune" returns the rows of both ids — the header is fetched for the first
row's id `"tt1"`, yet the `"tt2"` row stays in the listed result set instead
of being excluded. -/
theorem stats_rows_mix_canonical_ids :
    (statsRows stC6 1 "Dune").map (fun r => (r.movie_id, r.review_score)) =
      [("tt1", 8), ("tt2", 5)] ∧
    statsHeaderId stC6 1 "Dune" = some "tt1" := by
  constructor <;> decide

/-- C8: for an empty or whitespace-only query, `play_autocomplete` returns
exactly the single "start typing" sentinel and performs no external catalog
call, whatever the catalog would have answered. -/
theorem play_autocomplete_empty_input (fetchResult : Option (List OmdbSearchT))
    (current : String) (h : pyStrip current = "") :
    play_autocomplete fetchResult current = ([startTypingChoice], false) := by
  simp [play_autocomplete, h]

/-- Witness for C8 at the whitespace-only query `"  "`. -/
theorem play_autocomplete_empty_input_witness :
    play_autocomplete (some demoSearch) "  " = ([startTypingChoice], false) :=
  play_autocomplete_empty_input (some demoSearch) "  " (by decide)

/-- C9: for a non-whitespace query whose upstream search succeeded, the
suggestions are exactly the first `limit` upstream candidates in upstream
order, each formatted `"{title} - ({year})"` with the canonical id as value:
a prefix of the formatted upstream list, of length `min limit n`, with no
local re-ranking. -/
theorem play_autocomplete_formats_prefix (rs : List OmdbSearchT)
    (current : String) (h : pyStrip current ≠ "") :
    (play_autocomplete (some rs) current).1 =
      (rs.take autocompleteLimit).map formatChoice ∧
    (play_autocomplete (some rs) current).1.length =
      min autocompleteLimit rs.length ∧
    ∃ rest, (play_autocomplete (some rs) current).1 ++ rest =
      rs.map formatChoice := by
  have hout : (play_autocomplete (some rs) current).1 =
      (rs.take autocompleteLimit).map formatChoice := by
    simp [play_autocomplete, h]
  refine ⟨hout, ?_, ?_⟩
  · rw [hout]; simp
  · refine ⟨(rs.drop autocompleteLimit).map formatChoice, ?_⟩
    rw [hout, ← List.map_append, List.take_append_drop]

/-- Witness for C9 at the query `"dune"` with two upstream candidates. -/
theorem play_autocomplete_formats_prefix_witness :
    (play_autocomplete (some demoSearch) "dune").1 =
      (demoSearch.take autocompleteLimit).map formatChoice ∧
    (play_autocomplete (some demoSearch) "dune").1.length =
      min autocompleteLimit demoSearch.length ∧
    ∃ rest, (play_autocomplete (some demoSearch) "dune").1 ++ rest =
      demoSearch.map formatChoice :=
  play_autocomplete_formats_prefix demoSearch "dune" (by decide)

/-- C10: the rating menu offers exactly the options `"1"`..`"10"` (as both
label and value) with `min_values = max_values = 1`, and every option value
parses under `int` to an integer in [1, 10]: no out-of-range or non-integer
score can reach the upsert through this interface. -/
theorem review_select_scores_in_range :
    reviewSelectMinValues = 1 ∧ reviewSelectMaxValues = 1 ∧
    reviewSelectOptions.map (fun o => o.value) =
      ["1", "2", "3", "4", "5", "6", "7", "8", "9", "10"] ∧
    reviewSelectOptions.map (fun o => o.label) =
      ["1", "2", "3", "4", "5", "6", "7", "8", "9", "10"] ∧
    reviewSelectOptions.all (fun o =>
      match callbackParseScore o.value with
      | some n => decide (1 ≤ n ∧ n ≤ 10)
      | none => false) = true := by
  refine ⟨rfl, rfl, by decide, by decide, by decide⟩

end Rumble
